import Mathlib

/-!
Verification development for the NoteElec game substrate.

Shallow embedding of:
* the `Player` entity class (src/indid/engine/core/entities/Player/player.ts),
* the `EntityPool` lifecycle manager (src/indid/engine/core/entities/pool/entitiesPool.ts),
* the frame scheduler `GameLoop` (the multi-callback variant with pause/resume,
  rate limiting and error isolation),
* the `Scene` composition layer (src/indid/engine/core/scene/scene.ts),
* the `updateState` handlers of the two `NetworkServer` variants
  (src/indid/engine/expends/server/server.ts and src/indid/engine/Network/server.ts).

JavaScript numbers are modelled as rationals (ℚ); object identity of `Player`
instances and of JS arrays is modelled with an explicit store (heap) indexed by
natural-number references.  Life-cycle hooks (`onAdd`, `onRemove`, ...) are
modelled as an emitted event trace: one event per hook invocation, in
invocation order.
-/

namespace NoteElec

/-! ### Player entity (player.ts) -/

/-- Render shape of an entity: `'rect' | 'circle'` in the source. -/
inductive Shape
  | rect
  | circle
deriving DecidableEq, Repr

/-- Border style: `{ width: number; color: string }`. -/
structure Border where
  width : ℚ
  color : String
deriving DecidableEq, Repr

/-- The `Player` record with the class-field defaults from player.ts.
Optional render attributes keep their `Option` type; fields that the class
initialises with a concrete default are `some` of that default.
The dynamic extension fields (`[key: string]: any`) carry no constraint in the
source and play no role in any claim, so they are not represented. -/
structure Player where
  id : String := "-1"
  name : String := "undefined"
  location : ℚ × ℚ := (0, 0)
  size : ℚ × ℚ := (1, 1)
  background : Option String := some "gray"
  opacity : Option ℚ := some 1
  rotation : Option ℚ := some 0
  border : Option Border := none
  shape : Option Shape := some Shape.rect
  imageSrc : Option String := none
deriving DecidableEq, Repr

/-- The well-typed constructor parameters: `some v` means the key is present in
the `params` object with (well-typed) value `v`, `none` means it is absent.
Keys present with a value that fails JavaScript `typeof`-style checks are not
representable in the typed embedding; the only value-level check the
constructor performs on a well-typed value is the opacity range check. -/
structure PlayerParams where
  id : Option String := none
  name : Option String := none
  location : Option (ℚ × ℚ) := none
  size : Option (ℚ × ℚ) := none
  background : Option String := none
  opacity : Option ℚ := none
  rotation : Option ℚ := none
  border : Option Border := none
  shape : Option Shape := none
  imageSrc : Option String := none
deriving DecidableEq, Repr

/-- Validator for `id` (`typeof v === 'string'`): holds for every well-typed value. -/
def validId (_ : String) : Bool := true

/-- Validator for `name` (`typeof v === 'string'`). -/
def validName (_ : String) : Bool := true

/-- Validator for `location` (length-2 number array): holds by typing. -/
def validLocation (_ : ℚ × ℚ) : Bool := true

/-- Validator for `size` (length-2 number array).  NOTE: the source checks only
that both components are numbers; it does NOT check positivity. -/
def validSize (_ : ℚ × ℚ) : Bool := true

/-- Validator for `background` (string or undefined). -/
def validBackground (_ : String) : Bool := true

/-- Validator for `opacity`: `typeof v === 'number' && v >= 0 && v <= 1`. -/
def validOpacity (v : ℚ) : Bool := decide (0 ≤ v) && decide (v ≤ 1)

/-- Validator for `rotation` (number or undefined). -/
def validRotation (_ : ℚ) : Bool := true

/-- Validator for `border` (`\x7b width: number; color: string \x7d` or undefined). -/
def validBorder (_ : Border) : Bool := true

/-- Validator for `shape` (`'rect' | 'circle'` or undefined). -/
def validShape (_ : Shape) : Bool := true

/-- Validator for `imageSrc` (string or undefined). -/
def validImageSrc (_ : String) : Bool := true

/-- The formatted validation message produced by `getValidationErrorMsg`. -/
def validationErrorMsg (key : String) : String :=
  match key with
  | "id" => "Invalid type for id: expected string"
  | "name" => "Invalid type for name: expected string"
  | "location" => "Invalid type for location: expected number[] [x, y]"
  | "size" => "Invalid type for size: expected number[] [w, h] (width, height)"
  | "background" => "Invalid type for background: expected string (CSS color) or undefined"
  | "opacity" => "Invalid type for opacity: expected number between 0 and 1 or undefined"
  | "rotation" => "Invalid type for rotation: expected number (radian) or undefined"
  | "border" => "Invalid type for border: expected object with width and color or undefined"
  | "shape" => "Invalid type for shape: expected rect or circle or undefined"
  | "imageSrc" => "Invalid type for imageSrc: expected string (image path) or undefined"
  | _ => "Invalid type: unknown error"

/-- Field assignment performed by the constructor after validation: keys present
in `params` overwrite the class-field defaults. -/
def applyParams (ps : PlayerParams) : Player :=
  { id := ps.id.getD "-1"
    name := ps.name.getD "undefined"
    location := ps.location.getD (0, 0)
    size := ps.size.getD (1, 1)
    background := some (ps.background.getD "gray")
    opacity := some (ps.opacity.getD 1)
    rotation := some (ps.rotation.getD 0)
    border := ps.border
    shape := some (ps.shape.getD Shape.rect)
    imageSrc := ps.imageSrc }

/-- The `Player` constructor: checks each present key against its validator in
the key order of the `validators` object and throws a `TypeError` at the first
failure; on success it assigns the validated fields over the defaults. -/
def mkPlayer (ps : PlayerParams) : Except String Player :=
  if ps.id.any (fun v => !(validId v)) then .error (validationErrorMsg "id")
  else if ps.name.any (fun v => !(validName v)) then .error (validationErrorMsg "name")
  else if ps.location.any (fun v => !(validLocation v)) then .error (validationErrorMsg "location")
  else if ps.size.any (fun v => !(validSize v)) then .error (validationErrorMsg "size")
  else if ps.background.any (fun v => !(validBackground v)) then
    .error (validationErrorMsg "background")
  else if ps.opacity.any (fun v => !(validOpacity v)) then .error (validationErrorMsg "opacity")
  else if ps.rotation.any (fun v => !(validRotation v)) then .error (validationErrorMsg "rotation")
  else if ps.border.any (fun v => !(validBorder v)) then .error (validationErrorMsg "border")
  else if ps.shape.any (fun v => !(validShape v)) then .error (validationErrorMsg "shape")
  else if ps.imageSrc.any (fun v => !(validImageSrc v)) then .error (validationErrorMsg "imageSrc")
  else .ok (applyParams ps)

/-- `setX`: the `typeof x !== 'number'` guard holds by typing; assigns `location[0]`. -/
def Player.setX (p : Player) (x : ℚ) : Player := { p with location := (x, p.location.2) }

/-- `setY`: assigns `location[1]`. -/
def Player.setY (p : Player) (y : ℚ) : Player := { p with location := (p.location.1, y) }

/-- `setW`: the source checks only `typeof w !== 'number'`; any rational is
accepted (no positivity check) and assigned to `size[0]`. -/
def Player.setW (p : Player) (w : ℚ) : Player := { p with size := (w, p.size.2) }

/-- `setH`: checks only that `h` is a number; assigns `size[1]`. -/
def Player.setH (p : Player) (h : ℚ) : Player := { p with size := (p.size.1, h) }

/-- `setSize` (two-number form): both overloads only check that the components
are numbers, then assign `size = [w, h]`. -/
def Player.setSize (p : Player) (w h : ℚ) : Player := { p with size := (w, h) }

/-- `setOpacity`: throws unless `opacity` is a number in `[0, 1]`. -/
def Player.setOpacity (p : Player) (v : ℚ) : Except String Player :=
  if decide (0 ≤ v) && decide (v ≤ 1) then .ok { p with opacity := some v }
  else .error "opacity must be a number between 0 and 1"

/-- `setRotation`: the number check holds by typing. -/
def Player.setRotation (p : Player) (r : ℚ) : Player := { p with rotation := some r }

/-- Boolean form of the spec invariant on opacity: when set, it lies in `[0, 1]`. -/
def opacityOkB (p : Player) : Bool :=
  match p.opacity with
  | none => true
  | some v => decide (0 ≤ v) && decide (v ≤ 1)

/-! ### EntityPool (entitiesPool.ts)

`Player` instances are heap objects; the pool is modelled against an explicit
store `store : List Player` in which a natural-number index is an object
reference.  `entities` is the insertion-ordered `Map<string, Player>` (id to
reference), `entityCache` is the `_entityCache` array and `freePool` the
free-list, both as lists of references. -/

/-- Errors thrown by `EntityPool` operations (the source throws `Error` with a
formatted message; the constructors stand for the two message families). -/
inductive PoolErr
  /-- "实体必须是Player类的实例" / "实体ID不合法：必须是非空字符串". -/
  | invalidEntity
  /-- "实体ID ... 已存在，无法重复添加". -/
  | duplicateId (id : String)
deriving DecidableEq, Repr

/-- One life-cycle hook invocation. -/
inductive HookEvent
  | add (r : ℕ)
  | remove (r : ℕ)
  | clear
  | recycle (r : ℕ)
  | reuse (r : ℕ)
deriving DecidableEq, Repr

/-- The pool state plus the object store the references point into. -/
structure PoolState where
  store : List Player := []
  entities : List (String × ℕ) := []
  entityCache : List ℕ := []
  freePool : List ℕ := []
deriving DecidableEq, Repr

/-- JS `String.prototype.trim()`: strip leading and trailing whitespace
(modelled over the character list so that it evaluates). -/
def strTrim (s : String) : String :=
  String.mk (((s.toList.dropWhile Char.isWhitespace).reverse.dropWhile
    Char.isWhitespace).reverse)

/-- `this.entities.get(id)`: first (and, for genuine `Map` states, only) entry
with the given key. -/
def lookupId (st : PoolState) (id : String) : Option ℕ :=
  (st.entities.find? (fun e => decide (e.1 = id))).map (·.2)

/-- `has(id)`. -/
def PoolState.hasId (st : PoolState) (id : String) : Bool :=
  (lookupId st id).isSome

/-- Dereference the store (total, with the default record out of range). -/
def PoolState.entityAt (st : PoolState) (r : ℕ) : Player :=
  st.store.getD r {}

/-- Allocate a fresh `Player` object (a `new Player(...)` done by the caller)
and return its reference. -/
def PoolState.alloc (st : PoolState) (p : Player) : PoolState × ℕ :=
  ({ st with store := st.store ++ [p] }, st.store.length)

/-- `add(entity)`.  Mirrors the source order: `_validatePlayerEntity` (instance
check — a dangling reference stands for a non-`Player` argument — and non-empty
trimmed id), then the duplicate-id check, then `entities.set`, `_entityCache.push`
and the `onAdd` hook.  Both throws happen before any mutation, so the failure
branches return the state unchanged. -/
def PoolState.add (st : PoolState) (r : ℕ) : PoolState × List HookEvent × Option PoolErr :=
  match st.store.get? r with
  | none => (st, [], some PoolErr.invalidEntity)
  | some p =>
    if strTrim p.id = "" then (st, [], some PoolErr.invalidEntity)
    else if st.hasId p.id then (st, [], some (PoolErr.duplicateId p.id))
    else ({ st with entities := st.entities ++ [(p.id, r)],
                    entityCache := st.entityCache ++ [r] },
          [HookEvent.add r], none)

/-- `remove(id)`: `Map.delete` plus `indexOf`/`splice` on the cache (first
occurrence), then the `onRemove` hook; returns whether anything was removed. -/
def PoolState.remove (st : PoolState) (id : String) : PoolState × List HookEvent × Bool :=
  match lookupId st id with
  | none => (st, [], false)
  | some r =>
    ({ st with entities := st.entities.eraseP (fun e => decide (e.1 = id)),
               entityCache := st.entityCache.erase r },
     [HookEvent.remove r], true)

/-- `recycle(id)`: looks the entity up, removes it via `remove(id)` (which fires
`onRemove`), then pushes the same instance onto the free-list and fires
`onRecycle`. -/
def PoolState.recycle (st : PoolState) (id : String) : PoolState × List HookEvent × Bool :=
  match lookupId st id with
  | none => (st, [], false)
  | some r =>
    let rm := st.remove id
    ({ rm.1 with freePool := rm.1.freePool ++ [r] },
     rm.2.1 ++ [HookEvent.recycle r], true)

/-- `getOrCreate(createFn, resetFn)`: pops (LIFO) from the free-list if
non-empty, applies `resetFn` to the popped instance in place and fires
`onReuse`; otherwise calls `createFn` — modelled as allocating the `Player`
value `create` it would return.  Yields the reference handed to the caller. -/
def PoolState.getOrCreate (st : PoolState) (create : Player) (reset : Player → Player) :
    PoolState × List HookEvent × ℕ :=
  match st.freePool.getLast? with
  | some r =>
    ({ st with freePool := st.freePool.dropLast,
               store := st.store.set r (reset (st.store.getD r {})) },
     [HookEvent.reuse r], r)
  | none =>
    let a := st.alloc create
    (a.1, [], a.2)

/-- `clear()`: no-op on an empty pool; otherwise fires `onRemove` for every
cached entity, empties map and cache, and fires `onClear`. -/
def PoolState.clear (st : PoolState) : PoolState × List HookEvent :=
  if st.entityCache.length = 0 then (st, [])
  else ({ st with entities := [], entityCache := [] },
        st.entityCache.map HookEvent.remove ++ [HookEvent.clear])

/-- `clearFreePool(destroyFn?)`: empties the free-list (the optional per-entity
teardown has no effect on the pool state). -/
def PoolState.clearFreePool (st : PoolState) : PoolState :=
  { st with freePool := [] }

/-- `destroy(destroyFn?)`: `clear()` then `clearFreePool(destroyFn)`.  The final
hook-detaching loop writes to the `Object.freeze`-frozen hooks object and
therefore has no effect; the hook representation is unchanged. -/
def PoolState.destroy (st : PoolState) : PoolState × List HookEvent :=
  let c := st.clear
  (c.1.clearFreePool, c.2)

/-- `getAll()`: value-level contents of the returned snapshot (`[..._entityCache]`).
The array-identity aspect of the copy is modelled separately below. -/
def PoolState.getAll (st : PoolState) : List ℕ :=
  st.entityCache

/-! ### JS array identity, for the `getAll` snapshot claim

`getAll` returns `[...this._entityCache]` — a freshly allocated array.  To make
the copy observable we model JS arrays as heap cells: `cacheRef` is the identity
of the live `_entityCache` array, and `getAllSnapshot` allocates a fresh cell
holding a copy of its contents. -/

/-- Heap of JS arrays of entity references; an index is an array identity. -/
structure ArrayHeap where
  cells : List (List ℕ) := []
deriving DecidableEq, Repr

/-- Read an array through its reference. -/
def readArr (h : ArrayHeap) (r : ℕ) : List ℕ :=
  h.cells.getD r []

/-- In-place mutation of the array behind `r` (element writes, push, splice,
reordering — any mutation is some new contents `l`). -/
def writeArr (h : ArrayHeap) (r : ℕ) (l : List ℕ) : ArrayHeap :=
  ⟨h.cells.set r l⟩

/-- `getAll()` at the array level: allocate a fresh array whose contents copy
the live cache array `cacheRef`. -/
def getAllSnapshot (cacheRef : ℕ) (h : ArrayHeap) : ℕ × ArrayHeap :=
  (h.cells.length, ⟨h.cells ++ [readArr h cacheRef]⟩)

/-! ### GameLoop scheduler (the multi-callback variant with pause/resume,
rate limiting and error isolation)

Registered callbacks are identified by natural numbers (one fresh id per
registration; distinct closures compare unequal under JS `!==`).  Their
behaviour lives in a `CbEnv` environment over an abstract world `W` (the
mutable state the closures capture): a callback transforms the world and may
additionally throw, reported as `some message`. -/

/-- Scheduler state, one field per private field of the `GameLoop` class. -/
structure LoopState where
  isRunning : Bool := false
  isPaused : Bool := false
  lastTime : ℚ := 0
  pauseStartTime : ℚ := 0
  maxFps : Option ℚ := none
  frameInterval : ℚ := 0
  updateCallbacks : List ℕ := []
  renderCallbacks : List ℕ := []
  frameCount : ℕ := 0
  lastFpsUpdate : ℚ := 0
  currentFps : ℤ := 0
deriving DecidableEq, Repr

/-- Behaviour of the registered closures and of the optional error handler.
A callback returns the world at its return (or throw) point and `some e` when
it throws `e`. -/
structure CbEnv (W : Type) where
  upd : ℕ → ℚ → W → W × Option String
  ren : ℕ → W → W × Option String
  errH : Option (String → W → W × Option String) := none

/-- `#handleError`: logs, then calls the error callback if set; an exception
from the handler itself is caught and only logged. -/
def handleError {W : Type} (env : CbEnv W) (w : W) (_e : String) : W :=
  match env.errH with
  | none => w
  | some h => (h _e w).1

/-- Observable events of one tick: a callback invocation (updates carry the
`deltaTime` they received) or a caught callback exception. -/
inductive TickEv
  | update (c : ℕ) (dt : ℚ)
  | render (c : ℕ)
  | errCaught (c : ℕ) (e : String)
deriving DecidableEq, Repr

/-- `updateCallbacks.forEach(cb => try cb(deltaTime) catch #handleError)`. -/
def runUpdates {W : Type} (env : CbEnv W) (dt : ℚ) : List ℕ → W → W × List TickEv
  | [], w => (w, [])
  | c :: cs, w =>
    let s := env.upd c dt w
    match s.2 with
    | none =>
      let rest := runUpdates env dt cs s.1
      (rest.1, TickEv.update c dt :: rest.2)
    | some e =>
      let rest := runUpdates env dt cs (handleError env s.1 e)
      (rest.1, TickEv.update c dt :: TickEv.errCaught c e :: rest.2)

/-- `renderCallbacks.forEach(cb => try cb() catch #handleError)`. -/
def runRenders {W : Type} (env : CbEnv W) : List ℕ → W → W × List TickEv
  | [], w => (w, [])
  | c :: cs, w =>
    let s := env.ren c w
    match s.2 with
    | none =>
      let rest := runRenders env cs s.1
      (rest.1, TickEv.render c :: rest.2)
    | some e =>
      let rest := runRenders env cs (handleError env s.1 e)
      (rest.1, TickEv.render c :: TickEv.errCaught c e :: rest.2)

/-- The clamped per-frame delta time in seconds:
`Math.min(elapsed / 1000, 0.2)`. -/
def dtOf (st : LoopState) (ts : ℚ) : ℚ :=
  min ((ts - st.lastTime) / 1000) (1 / 5)

/-- The executing branch of `#loop(timestamp)`: compute
`deltaTime = Math.min(elapsed / 1000, 0.2)`, advance `lastTime`, run all
update then all render callbacks with per-callback error isolation, and
refresh the rolling fps once per second. -/
def tickRun {W : Type} (env : CbEnv W) (st : LoopState) (w : W) (ts : ℚ) :
    LoopState × W × List TickEv :=
  let elapsed := ts - st.lastTime
  let dt := min (elapsed / 1000) (1 / 5)
  let st1 := { st with lastTime := ts }
  let u := runUpdates env dt st.updateCallbacks w
  let r := runRenders env st.renderCallbacks u.1
  let fc : ℕ := st1.frameCount + 1
  let fpsElapsed := ts - st1.lastFpsUpdate
  let st2 :=
    if decide (1000 ≤ fpsElapsed) then
      { st1 with currentFps := round ((fc : ℚ) * 1000 / fpsElapsed),
                 frameCount := 0, lastFpsUpdate := ts }
    else { st1 with frameCount := fc }
  (st2, r.1, u.2 ++ r.2)

/-- One invocation of `#loop(timestamp)` (without the trailing
`requestAnimationFrame` re-arm, which only schedules the next invocation):
stopped → nothing; paused → re-arm only; rate-limited with the elapsed time
below the frame interval → re-arm only; otherwise the executing branch. -/
def tick {W : Type} (env : CbEnv W) (st : LoopState) (w : W) (ts : ℚ) :
    LoopState × W × List TickEv :=
  if !st.isRunning then (st, w, [])
  else if st.isPaused then (st, w, [])
  else if st.maxFps.isSome && decide (ts - st.lastTime < st.frameInterval) then (st, w, [])
  else tickRun env st w ts

/-- `start(immediate)` state transition (the immediate first frame, when
requested, is a `tick` at `lastTime`). -/
def start (st : LoopState) (now : ℚ) : LoopState :=
  if st.isRunning then st
  else { st with isRunning := true, isPaused := false, lastTime := now,
                 lastFpsUpdate := now, frameCount := 0, currentFps := 0 }

/-- `stop()`: terminates and clears both callback lists. -/
def stop (st : LoopState) : LoopState :=
  { st with isRunning := false, isPaused := false,
            updateCallbacks := [], renderCallbacks := [] }

/-- `pause()`: no-op unless running and not paused; records the pause start. -/
def pause (st : LoopState) (now : ℚ) : LoopState :=
  if !st.isRunning || st.isPaused then st
  else { st with isPaused := true, pauseStartTime := now }

/-- `resume()`: no-op unless running and paused; shifts `lastTime` forward by
the paused duration so the next delta time is not inflated. -/
def resume (st : LoopState) (now : ℚ) : LoopState :=
  if !st.isRunning || !st.isPaused then st
  else { st with isPaused := false,
                 lastTime := st.lastTime + (now - st.pauseStartTime) }

/-- `addUpdateCallback(fn)` (the returned remover is `removeUpdateCallback` at
the same id). -/
def addUpdateCallback (st : LoopState) (c : ℕ) : LoopState :=
  { st with updateCallbacks := st.updateCallbacks ++ [c] }

/-- `removeUpdateCallback(fn)`: filters out every occurrence of the closure. -/
def removeUpdateCallback (st : LoopState) (c : ℕ) : LoopState :=
  { st with updateCallbacks := st.updateCallbacks.filter (fun x => decide (x ≠ c)) }

/-- `addRenderCallback(fn)`. -/
def addRenderCallback (st : LoopState) (c : ℕ) : LoopState :=
  { st with renderCallbacks := st.renderCallbacks ++ [c] }

/-- `removeRenderCallback(fn)`. -/
def removeRenderCallback (st : LoopState) (c : ℕ) : LoopState :=
  { st with renderCallbacks := st.renderCallbacks.filter (fun x => decide (x ≠ c)) }

/-- `setMaximumFps(fps)`: positive fps sets the limit and the per-frame minimum
interval `1000 / fps`; `none` clears it. -/
def setMaximumFps (st : LoopState) (fps : Option ℚ) : Except String LoopState :=
  match fps with
  | some f =>
    if f ≤ 0 then .error "max fps must be a positive number or null"
    else .ok { st with maxFps := some f, frameInterval := 1000 / f }
  | none => .ok { st with maxFps := none, frameInterval := 0 }

/-- The update-callback invocations of a trace, in order, with their delta times. -/
def updInvocations : List TickEv → List (ℕ × ℚ)
  | [] => []
  | TickEv.update c d :: t => (c, d) :: updInvocations t
  | _ :: t => updInvocations t

/-- The render-callback invocations of a trace, in order. -/
def renInvocations : List TickEv → List ℕ
  | [] => []
  | TickEv.render c :: t => c :: renInvocations t
  | _ :: t => renInvocations t

/-- Drive the scheduler through a sequence of frame timestamps, concatenating
the tick traces. -/
def runTicks {W : Type} (env : CbEnv W) : List ℚ → LoopState → W → LoopState × W × List TickEv
  | [], st, w => (st, w, [])
  | ts :: rest, st, w =>
    let t := tick env st w ts
    let r := runTicks env rest t.1 t.2.1
    (r.1, r.2.1, t.2.2 ++ r.2.2)

/-! ### Scene (scene.ts)

A scene binds one `EntityPool` to the scheduler.  `activate()` registers one
update closure and one render closure with the `GameLoop` (their ids are kept,
through the returned removers, in `removeUpdateCallback`/`removeRenderCallback`);
`destroy()` calls both removers, then destroys the pool, then flips `isActive`. -/

/-- Scene state: the activation flag, the ids of the two registered closures
and the scene-owned entity pool. -/
structure SceneState where
  isActive : Bool := false
  cbU : ℕ := 0
  cbR : ℕ := 0
  pool : PoolState := {}
deriving DecidableEq, Repr

/-- The internal steps of `destroy()`, in execution order. -/
inductive DestroyStep
  | deregisterUpdate (c : ℕ)
  | deregisterRender (c : ℕ)
  | poolDestroy
  | setInactive
deriving DecidableEq, Repr

/-- `activate()`: warns and no-ops when already active; otherwise registers the
update closure (fresh id `cu`) and the render closure (fresh id `cr`) with the
loop and marks the scene active. -/
def sceneActivate (sc : SceneState) (loop : LoopState) (cu cr : ℕ) :
    SceneState × LoopState :=
  if sc.isActive then (sc, loop)
  else ({ sc with isActive := true, cbU := cu, cbR := cr },
        addRenderCallback (addUpdateCallback loop cu) cr)

/-- `destroy()`: warns and no-ops when inactive; otherwise calls the two stored
removers (deregistering the closures from the loop), destroys the pool, and
flips `isActive`.  The returned step list records the execution order. -/
def sceneDestroy (sc : SceneState) (loop : LoopState) :
    SceneState × LoopState × List DestroyStep :=
  if !sc.isActive then (sc, loop, [])
  else
    let loop1 := removeUpdateCallback loop sc.cbU
    let loop2 := removeRenderCallback loop1 sc.cbR
    let pd := sc.pool.destroy
    ({ sc with isActive := false, pool := pd.1 }, loop2,
     [DestroyStep.deregisterUpdate sc.cbU, DestroyStep.deregisterRender sc.cbR,
      DestroyStep.poolDestroy, DestroyStep.setInactive])

/-! ### NetworkServer `updateState` handlers

Server-side player map: connection id (socket id) to the stored state.  Both
variants guard with `if (!this.players.has(socket.id)) return;` — an unknown
connection is silently ignored — and neither emits anything from this handler
(broadcasts happen only in the join/leave handlers and the interval timer). -/

/-- Messages a server can emit (`socket.emit` / `io.emit`). -/
inductive ServerMsg
  | assignId (id : String)
  | playerJoined (p : Player)
  | playerLeft (id : String)
  | stateUpdate (ps : List Player)
deriving DecidableEq, Repr

/-- `players.get(cid)` on the server map. -/
def lookupConn (m : List (String × Player)) (cid : String) : Option Player :=
  (m.find? (fun e => decide (e.1 = cid))).map (·.2)

/-- `players.set(cid, v)`: replace in place when the key exists (a `Map` keeps
the entry position), append otherwise. -/
def mapSet (m : List (String × Player)) (cid : String) (v : Player) :
    List (String × Player) :=
  if m.any (fun e => decide (e.1 = cid)) then
    m.map (fun e => if e.1 = cid then (cid, v) else e)
  else m ++ [(cid, v)]

/-- The `updateState` handler of src/indid/engine/expends/server/server.ts:
ignore unknown connection ids, otherwise replace the stored state with the
received payload.  The second component is what the handler emits: nothing. -/
def handleUpdateState (m : List (String × Player)) (cid : String) (state : Player) :
    List (String × Player) × List ServerMsg :=
  if m.any (fun e => decide (e.1 = cid)) then (mapSet m cid state, [])
  else (m, [])

/-- A partial state payload, `Omit<PlayerStateType, "id">` with every field
optional on the wire: `some v` marks a key present in the received object. -/
structure PartialState where
  name : Option String := none
  location : Option (ℚ × ℚ) := none
  size : Option (ℚ × ℚ) := none
  background : Option String := none
  opacity : Option ℚ := none
  rotation : Option ℚ := none
  border : Option Border := none
  shape : Option Shape := none
  imageSrc : Option String := none
deriving DecidableEq, Repr

/-- The object spread `\x7b ...old, ...state \x7d`: keys present in the payload
overwrite, absent keys keep the stored value; the payload carries no `id`, so
the stored `id` survives. -/
def mergeState (old : Player) (s : PartialState) : Player :=
  { old with
    name := s.name.getD old.name
    location := s.location.getD old.location
    size := s.size.getD old.size
    background := match s.background with | some v => some v | none => old.background
    opacity := match s.opacity with | some v => some v | none => old.opacity
    rotation := match s.rotation with | some v => some v | none => old.rotation
    border := match s.border with | some v => some v | none => old.border
    shape := match s.shape with | some v => some v | none => old.shape
    imageSrc := match s.imageSrc with | some v => some v | none => old.imageSrc }

/-- The `updateState` handler of src/indid/engine/Network/server.ts (merge
variant): ignore unknown connection ids, otherwise store the spread-merge of
the stored state and the payload.  Emits nothing. -/
def handleUpdateStateMerge (m : List (String × Player)) (cid : String) (s : PartialState) :
    List (String × Player) × List ServerMsg :=
  if m.any (fun e => decide (e.1 = cid)) then
    match lookupConn m cid with
    | some old => (mapSet m cid (mergeState old s), [])
    | none => (m, [])
  else (m, [])

/-! ### Concrete scenarios and invariant predicates used by the theorems -/

/-- World of the error-isolation scenario: the counter incremented by update
callback `B`, a render counter, and the log of errors seen by the handler. -/
structure ScenW where
  counter : ℕ := 0
  renders : ℕ := 0
  handled : List String := []
deriving DecidableEq, Repr

/-- Callback environment of the scenario: update callback `0` (`A`) always
throws `"errA"`, update callback `1` (`B`) increments the counter, every
render callback increments the render counter, and the registered error
handler records the error it is given. -/
def envAB : CbEnv ScenW :=
  { upd := fun c _ w =>
      if c = 0 then (w, some "errA")
      else if c = 1 then ({ w with counter := w.counter + 1 }, none)
      else (w, none)
    ren := fun _ w => ({ w with renders := w.renders + 1 }, none)
    errH := some (fun e w => ({ w with handled := w.handled ++ [e] }, none)) }

/-- An environment of callbacks that do nothing and never throw. -/
def unitEnv : CbEnv Unit :=
  { upd := fun _ _ w => (w, none)
    ren := fun _ w => (w, none) }

/-- A concrete running scheduler with update callbacks `[0, 1]` and render
callback `[2]`, used to instantiate the scheduler theorems. -/
def stRun : LoopState :=
  { isRunning := true, lastTime := 100, updateCallbacks := [0, 1],
    renderCallbacks := [2] }

/-- References held by the active map, in insertion order. -/
def activeRefs (st : PoolState) : List ℕ := st.entities.map (·.2)

/-- Every active map entry's key is the `id` of the instance it references. -/
def keyConsistent (st : PoolState) : Prop :=
  ∀ e ∈ st.entities, (st.store.getD e.2 {}).id = e.1

/-- `Map` keys are unique. -/
def keysNodup (st : PoolState) : Prop := (st.entities.map (·.1)).Nodup

/-- All references point into the store. -/
def refsBounded (st : PoolState) : Prop :=
  (∀ r ∈ activeRefs st, r < st.store.length) ∧ ∀ r ∈ st.freePool, r < st.store.length

/-- The spec invariant under test: no instance is simultaneously a member of
the active map and the free-list. -/
def disjointFree (st : PoolState) : Prop :=
  ∀ r ∈ activeRefs st, r ∉ st.freePool

/-- The inductive pool invariant. -/
def poolInv (st : PoolState) : Prop :=
  keyConsistent st ∧ keysNodup st ∧ refsBounded st ∧ disjointFree st

/-- A caller-constructed entity used by the aliasing counterexample. -/
def aliasPlayer : Player := { id := "p1" }

/-- Pool after `add(e)` of the freshly constructed `aliasPlayer` (reference 0). -/
def aliasSt1 : PoolState := ((PoolState.alloc {} aliasPlayer).1.add 0).1

/-- Pool after the subsequent `recycle("p1")`: reference 0 sits in the free-list. -/
def aliasSt2 : PoolState := (aliasSt1.recycle "p1").1

/-- Pool after the caller re-adds its still-held reference via `add(e)`:
reference 0 is now active AND in the free-list. -/
def aliasSt3 : PoolState := (aliasSt2.add 0).1

/-- A `Player` constructed with the non-positive size `[0, 0]` — accepted by
the constructor, which checks only that the components are numbers. -/
def zeroSizePlayer : Player := { id := "p1", size := (0, 0) }

/-- A pool holding `zeroSizePlayer` (allocated at reference 0, then added). -/
def zeroSizePool : PoolState := ((PoolState.alloc {} zeroSizePlayer).1.add 0).1

/-- A concrete active scene whose closures are registered under ids 5 and 7. -/
def sceneC9 : SceneState := { isActive := true, cbU := 5, cbR := 7 }

/-- A concrete running scheduler holding exactly the closures of `sceneC9`. -/
def loopC9 : LoopState := { isRunning := true, updateCallbacks := [5], renderCallbacks := [7] }

/-! ## Theorems -/

/-! ### Scheduler lemmas -/

theorem updInvocations_append (l1 l2 : List TickEv) :
    updInvocations (l1 ++ l2) = updInvocations l1 ++ updInvocations l2 := by
  induction l1 with
  | nil => rfl
  | cons e t ih => cases e <;> simp [updInvocations, ih]

theorem renInvocations_append (l1 l2 : List TickEv) :
    renInvocations (l1 ++ l2) = renInvocations l1 ++ renInvocations l2 := by
  induction l1 with
  | nil => rfl
  | cons e t ih => cases e <;> simp [renInvocations, ih]

theorem runUpdates_updInv {W : Type} (env : CbEnv W) (dt : ℚ) (cs : List ℕ) (w : W) :
    updInvocations (runUpdates env dt cs w).2 = cs.map (fun c => (c, dt)) := by
  induction cs generalizing w with
  | nil => rfl
  | cons c t ih =>
    simp only [runUpdates]
    cases h : (env.upd c dt w).2 <;> simp [updInvocations, ih]

theorem runUpdates_renInv {W : Type} (env : CbEnv W) (dt : ℚ) (cs : List ℕ) (w : W) :
    renInvocations (runUpdates env dt cs w).2 = [] := by
  induction cs generalizing w with
  | nil => rfl
  | cons c t ih =>
    simp only [runUpdates]
    cases h : (env.upd c dt w).2 <;> simp [renInvocations, ih]

theorem runRenders_renInv {W : Type} (env : CbEnv W) (cs : List ℕ) (w : W) :
    renInvocations (runRenders env cs w).2 = cs := by
  induction cs generalizing w with
  | nil => rfl
  | cons c t ih =>
    simp only [runRenders]
    cases h : (env.ren c w).2 <;> simp [renInvocations, ih]

theorem runRenders_updInv {W : Type} (env : CbEnv W) (cs : List ℕ) (w : W) :
    updInvocations (runRenders env cs w).2 = [] := by
  induction cs generalizing w with
  | nil => rfl
  | cons c t ih =>
    simp only [runRenders]
    cases h : (env.ren c w).2 <;> simp [updInvocations, ih]

theorem tickRun_trace {W : Type} (env : CbEnv W) (st : LoopState) (w : W) (ts : ℚ) :
    (tickRun env st w ts).2.2 =
      (runUpdates env (dtOf st ts) st.updateCallbacks w).2 ++
      (runRenders env st.renderCallbacks
        (runUpdates env (dtOf st ts) st.updateCallbacks w).1).2 := rfl

theorem tickRun_world {W : Type} (env : CbEnv W) (st : LoopState) (w : W) (ts : ℚ) :
    (tickRun env st w ts).2.1 =
      (runRenders env st.renderCallbacks
        (runUpdates env (dtOf st ts) st.updateCallbacks w).1).1 := rfl

theorem tickRun_state {W : Type} (env : CbEnv W) (st : LoopState) (w : W) (ts : ℚ) :
    (tickRun env st w ts).1.lastTime = ts ∧
    (tickRun env st w ts).1.isRunning = st.isRunning ∧
    (tickRun env st w ts).1.isPaused = st.isPaused ∧
    (tickRun env st w ts).1.updateCallbacks = st.updateCallbacks ∧
    (tickRun env st w ts).1.renderCallbacks = st.renderCallbacks := by
  by_cases h : (1000 : ℚ) ≤ ts - st.lastFpsUpdate <;> simp [tickRun, h]

theorem tick_normal_eq {W : Type} (env : CbEnv W) (st : LoopState) (w : W) (ts : ℚ)
    (h1 : st.isRunning = true) (h2 : st.isPaused = false) (h3 : st.maxFps = none) :
    tick env st w ts = tickRun env st w ts := by
  simp [tick, h1, h2, h3]

theorem tick_normal_trace {W : Type} (env : CbEnv W) (st : LoopState) (w : W) (ts : ℚ)
    (h1 : st.isRunning = true) (h2 : st.isPaused = false) (h3 : st.maxFps = none) :
    (tick env st w ts).2.2 =
      (runUpdates env (dtOf st ts) st.updateCallbacks w).2 ++
      (runRenders env st.renderCallbacks
        (runUpdates env (dtOf st ts) st.updateCallbacks w).1).2 := by
  rw [tick_normal_eq env st w ts h1 h2 h3, tickRun_trace]

theorem tick_normal_world {W : Type} (env : CbEnv W) (st : LoopState) (w : W) (ts : ℚ)
    (h1 : st.isRunning = true) (h2 : st.isPaused = false) (h3 : st.maxFps = none) :
    (tick env st w ts).2.1 =
      (runRenders env st.renderCallbacks
        (runUpdates env (dtOf st ts) st.updateCallbacks w).1).1 := by
  rw [tick_normal_eq env st w ts h1 h2 h3, tickRun_world]

theorem tick_normal_lastTime {W : Type} (env : CbEnv W) (st : LoopState) (w : W) (ts : ℚ)
    (h1 : st.isRunning = true) (h2 : st.isPaused = false) (h3 : st.maxFps = none) :
    (tick env st w ts).1.lastTime = ts := by
  rw [tick_normal_eq env st w ts h1 h2 h3]
  exact (tickRun_state env st w ts).1

theorem tick_isRunning {W : Type} (env : CbEnv W) (st : LoopState) (w : W) (ts : ℚ) :
    (tick env st w ts).1.isRunning = st.isRunning := by
  unfold tick
  split
  · rfl
  split
  · rfl
  split
  · rfl
  · exact (tickRun_state env st w ts).2.1

theorem tick_updateCallbacks {W : Type} (env : CbEnv W) (st : LoopState) (w : W) (ts : ℚ) :
    (tick env st w ts).1.updateCallbacks = st.updateCallbacks := by
  unfold tick
  split
  · rfl
  split
  · rfl
  split
  · rfl
  · exact (tickRun_state env st w ts).2.2.2.1

theorem tick_renderCallbacks {W : Type} (env : CbEnv W) (st : LoopState) (w : W) (ts : ℚ) :
    (tick env st w ts).1.renderCallbacks = st.renderCallbacks := by
  unfold tick
  split
  · rfl
  split
  · rfl
  split
  · rfl
  · exact (tickRun_state env st w ts).2.2.2.2

theorem tick_trace_cases {W : Type} (env : CbEnv W) (st : LoopState) (w : W) (ts : ℚ) :
    (tick env st w ts).2.2 = [] ∨
    (tick env st w ts).2.2 =
      (runUpdates env (dtOf st ts) st.updateCallbacks w).2 ++
      (runRenders env st.renderCallbacks
        (runUpdates env (dtOf st ts) st.updateCallbacks w).1).2 := by
  unfold tick
  split
  · exact Or.inl rfl
  split
  · exact Or.inl rfl
  split
  · exact Or.inl rfl
  · exact Or.inr (tickRun_trace env st w ts)

theorem tick_upd_not_fired {W : Type} (env : CbEnv W) (st : LoopState) (w : W) (ts : ℚ)
    {c : ℕ} (hc : c ∉ st.updateCallbacks) (d : ℚ) :
    (c, d) ∉ updInvocations (tick env st w ts).2.2 := by
  rcases tick_trace_cases env st w ts with h | h <;> rw [h]
  · simp [updInvocations]
  · rw [updInvocations_append, runUpdates_updInv, runRenders_updInv]
    simp only [List.append_nil, List.mem_map]
    rintro ⟨x, hx, hxe⟩
    rw [Prod.mk.injEq] at hxe
    exact hc (hxe.1 ▸ hx)

theorem tick_ren_not_fired {W : Type} (env : CbEnv W) (st : LoopState) (w : W) (ts : ℚ)
    {c : ℕ} (hc : c ∉ st.renderCallbacks) :
    c ∉ renInvocations (tick env st w ts).2.2 := by
  rcases tick_trace_cases env st w ts with h | h <;> rw [h]
  · simp [renInvocations]
  · rw [renInvocations_append, runUpdates_renInv, runRenders_renInv]
    simpa using hc

theorem runTicks_upd_not_fired {W : Type} (env : CbEnv W) (l : List ℚ) (st : LoopState)
    (w : W) {c : ℕ} (hc : c ∉ st.updateCallbacks) (d : ℚ) :
    (c, d) ∉ updInvocations (runTicks env l st w).2.2 := by
  induction l generalizing st w with
  | nil => simp [runTicks, updInvocations]
  | cons ts rest ih =>
    simp only [runTicks]
    rw [updInvocations_append]
    simp only [List.mem_append]
    rintro (h | h)
    · exact tick_upd_not_fired env st w ts hc d h
    · have hc1 : c ∉ (tick env st w ts).1.updateCallbacks := by
        rw [tick_updateCallbacks]; exact hc
      exact ih (tick env st w ts).1 (tick env st w ts).2.1 hc1 h

theorem runTicks_ren_not_fired {W : Type} (env : CbEnv W) (l : List ℚ) (st : LoopState)
    (w : W) {c : ℕ} (hc : c ∉ st.renderCallbacks) :
    c ∉ renInvocations (runTicks env l st w).2.2 := by
  induction l generalizing st w with
  | nil => simp [runTicks, renInvocations]
  | cons ts rest ih =>
    simp only [runTicks]
    rw [renInvocations_append]
    simp only [List.mem_append]
    rintro (h | h)
    · exact tick_ren_not_fired env st w ts hc h
    · have hc1 : c ∉ (tick env st w ts).1.renderCallbacks := by
        rw [tick_renderCallbacks]; exact hc
      exact ih (tick env st w ts).1 (tick env st w ts).2.1 hc1 h

/-! ### Claim theorems for the scheduler -/

/-- C3: for a running, unpaused, non-rate-limited scheduler, a tick computes
`deltaTime = min((timestamp - lastTime) / 1000, 0.2)` seconds, sets `lastTime`
to the current timestamp, invokes all update callbacks with that `deltaTime`
in registration order, then all render callbacks (updates strictly before
renders); every reported `deltaTime` is at most `0.2`. -/
theorem loop_tick_deltaTime (W : Type) (env : CbEnv W) (st : LoopState) (w : W) (ts : ℚ)
    (h1 : st.isRunning = true) (h2 : st.isPaused = false) (h3 : st.maxFps = none) :
    dtOf st ts = min ((ts - st.lastTime) / 1000) (1 / 5) ∧
    (tick env st w ts).1.lastTime = ts ∧
    updInvocations (tick env st w ts).2.2 =
      st.updateCallbacks.map (fun c => (c, dtOf st ts)) ∧
    renInvocations (tick env st w ts).2.2 = st.renderCallbacks ∧
    (∃ evU evR, (tick env st w ts).2.2 = evU ++ evR ∧
      updInvocations evU = st.updateCallbacks.map (fun c => (c, dtOf st ts)) ∧
      renInvocations evU = [] ∧ updInvocations evR = [] ∧
      renInvocations evR = st.renderCallbacks) ∧
    ∀ p ∈ updInvocations (tick env st w ts).2.2, p.2 ≤ 1 / 5 := by
  have htrace := tick_normal_trace env st w ts h1 h2 h3
  have hupd : updInvocations (tick env st w ts).2.2 =
      st.updateCallbacks.map (fun c => (c, dtOf st ts)) := by
    rw [htrace, updInvocations_append, runUpdates_updInv, runRenders_updInv,
      List.append_nil]
  refine ⟨rfl, tick_normal_lastTime env st w ts h1 h2 h3, hupd, ?_, ?_, ?_⟩
  · rw [htrace, renInvocations_append, runUpdates_renInv, runRenders_renInv,
      List.nil_append]
  · exact ⟨_, _, htrace, runUpdates_updInv env (dtOf st ts) st.updateCallbacks w,
      runUpdates_renInv env (dtOf st ts) st.updateCallbacks w,
      runRenders_updInv env st.renderCallbacks _,
      runRenders_renInv env st.renderCallbacks _⟩
  · intro p hp
    rw [hupd] at hp
    rcases List.mem_map.1 hp with ⟨c, _, hce⟩
    rw [← hce]
    exact min_le_right _ _

/-- Witness for C3 at a concrete scheduler state and timestamp. -/
theorem loop_tick_deltaTime_witness :
    stRun.isRunning = true ∧ stRun.isPaused = false ∧ stRun.maxFps = none ∧
    (tick unitEnv stRun () 400).1.lastTime = 400 ∧
    ∀ p ∈ updInvocations (tick unitEnv stRun () 400).2.2, p.2 ≤ 1 / 5 :=
  ⟨rfl, rfl, rfl,
   (loop_tick_deltaTime Unit unitEnv stRun () 400 rfl rfl rfl).2.1,
   (loop_tick_deltaTime Unit unitEnv stRun () 400 rfl rfl rfl).2.2.2.2.2⟩

/-- C2: callback exceptions are isolated — in any tick of a running, unpaused,
non-rate-limited scheduler, every registered update and render callback is
still invoked (in order) whatever any of them throws, and the loop stays
running; in the concrete scenario with update callbacks `[A throws, B
increments]` and one render callback, one tick increments `B`'s counter
exactly once, hands exactly `A`'s exception to the error handler, and still
runs the render callback. -/
theorem loop_error_isolation :
    (∀ (W : Type) (env : CbEnv W) (st : LoopState) (w : W) (ts : ℚ),
       st.isRunning = true → st.isPaused = false → st.maxFps = none →
       updInvocations (tick env st w ts).2.2 =
         st.updateCallbacks.map (fun c => (c, dtOf st ts)) ∧
       renInvocations (tick env st w ts).2.2 = st.renderCallbacks ∧
       (tick env st w ts).1.isRunning = true) ∧
    (∀ (st : LoopState) (w : ScenW) (ts : ℚ),
       st.isRunning = true → st.isPaused = false → st.maxFps = none →
       st.updateCallbacks = [0, 1] → st.renderCallbacks = [2] →
       (tick envAB st w ts).2.1.counter = w.counter + 1 ∧
       (tick envAB st w ts).2.1.handled = w.handled ++ ["errA"] ∧
       (tick envAB st w ts).2.1.renders = w.renders + 1 ∧
       (tick envAB st w ts).1.isRunning = true) := by
  constructor
  · intro W env st w ts h1 h2 h3
    have htrace := tick_normal_trace env st w ts h1 h2 h3
    refine ⟨?_, ?_, ?_⟩
    · rw [htrace, updInvocations_append, runUpdates_updInv, runRenders_updInv,
        List.append_nil]
    · rw [htrace, renInvocations_append, runUpdates_renInv, runRenders_renInv,
        List.nil_append]
    · rw [tick_isRunning]; exact h1
  · intro st w ts h1 h2 h3 hu hr
    have hw := tick_normal_world envAB st w ts h1 h2 h3
    rw [hu, hr] at hw
    refine ⟨?_, ?_, ?_, by rw [tick_isRunning]; exact h1⟩ <;>
      rw [hw] <;> simp [runUpdates, runRenders, envAB, handleError]

/-- Witness for C2: one tick of the concrete throw/increment scenario. -/
theorem loop_error_isolation_witness :
    stRun.isRunning = true ∧ stRun.updateCallbacks = [0, 1] ∧
    stRun.renderCallbacks = [2] ∧
    (tick envAB stRun {} 400).2.1.counter = 1 ∧
    (tick envAB stRun {} 400).2.1.handled = ["errA"] ∧
    (tick envAB stRun {} 400).2.1.renders = 1 ∧
    (tick envAB stRun {} 400).1.isRunning = true := by
  have h := loop_error_isolation.2 stRun {} 400 rfl rfl rfl rfl rfl
  exact ⟨rfl, rfl, rfl, h.1, h.2.1, h.2.2.1, h.2.2.2⟩

/-- C4: `pause()` then `resume()` shifts `lastTime` forward by exactly the
paused duration `t2 - t1`, touches neither callback list, and the next
executed frame's `deltaTime` equals the clamp of the time actually elapsed
while running — in particular it never exceeds that running time in seconds. -/
theorem loop_pause_resume (st : LoopState) (t1 t2 ts : ℚ)
    (hr : st.isRunning = true) (hp : st.isPaused = false) :
    (resume (pause st t1) t2).lastTime = st.lastTime + (t2 - t1) ∧
    (resume (pause st t1) t2).isRunning = true ∧
    (resume (pause st t1) t2).isPaused = false ∧
    (pause st t1).updateCallbacks = st.updateCallbacks ∧
    (pause st t1).renderCallbacks = st.renderCallbacks ∧
    (resume (pause st t1) t2).updateCallbacks = st.updateCallbacks ∧
    (resume (pause st t1) t2).renderCallbacks = st.renderCallbacks ∧
    dtOf (resume (pause st t1) t2) ts =
      min (((t1 - st.lastTime) + (ts - t2)) / 1000) (1 / 5) ∧
    dtOf (resume (pause st t1) t2) ts ≤ ((t1 - st.lastTime) + (ts - t2)) / 1000 ∧
    ∀ (W : Type) (env : CbEnv W) (w : W), st.maxFps = none →
      updInvocations (tick env (resume (pause st t1) t2) w ts).2.2 =
        st.updateCallbacks.map
          (fun c => (c, dtOf (resume (pause st t1) t2) ts)) := by
  have hpause : pause st t1 = { st with isPaused := true, pauseStartTime := t1 } := by
    simp [pause, hr, hp]
  have hres : resume (pause st t1) t2 =
      { st with isPaused := false, pauseStartTime := t1,
                lastTime := st.lastTime + (t2 - t1) } := by
    rw [hpause]; simp [resume, hr]
  have harith : ts - (st.lastTime + (t2 - t1)) = (t1 - st.lastTime) + (ts - t2) := by
    ring
  have hdt : dtOf (resume (pause st t1) t2) ts =
      min (((t1 - st.lastTime) + (ts - t2)) / 1000) (1 / 5) := by
    rw [hres]
    show min ((ts - (st.lastTime + (t2 - t1))) / 1000) (1 / 5) = _
    rw [harith]
  refine ⟨by rw [hres], by rw [hres]; exact hr, by rw [hres],
    by rw [hpause], by rw [hpause], by rw [hres], by rw [hres], hdt,
    hdt ▸ min_le_left _ _, ?_⟩
  intro W env w h3
  have h1b : (resume (pause st t1) t2).isRunning = true := by rw [hres]; exact hr
  have h2b : (resume (pause st t1) t2).isPaused = false := by rw [hres]
  have h3b : (resume (pause st t1) t2).maxFps = none := by rw [hres]; exact h3
  have htrace := tick_normal_trace env (resume (pause st t1) t2) w ts h1b h2b h3b
  rw [htrace, updInvocations_append, runUpdates_updInv, runRenders_updInv,
    List.append_nil]
  have : (resume (pause st t1) t2).updateCallbacks = st.updateCallbacks := by
    rw [hres]
  rw [this]

/-- Witness for C4: pause at `t = 200`, resume at `t = 1000`, next frame at
`t = 1100`, starting from the concrete running state `stRun`. -/
theorem loop_pause_resume_witness :
    stRun.isRunning = true ∧ stRun.isPaused = false ∧
    (resume (pause stRun 200) 1000).lastTime = stRun.lastTime + (1000 - 200) ∧
    dtOf (resume (pause stRun 200) 1000) 1100 ≤
      ((200 - stRun.lastTime) + (1100 - 1000)) / 1000 :=
  ⟨rfl, rfl, (loop_pause_resume stRun 200 1000 1100 rfl rfl).1,
   (loop_pause_resume stRun 200 1000 1100 rfl rfl).2.2.2.2.2.2.2.2.1⟩

/-! ### Pool lemmas -/

theorem mem_activeRefs {st : PoolState} {r : ℕ} :
    r ∈ activeRefs st ↔ ∃ e ∈ st.entities, e.2 = r := by
  simp [activeRefs]

theorem lookupId_some_mem {st : PoolState} {id : String} {r : ℕ}
    (h : lookupId st id = some r) : (id, r) ∈ st.entities := by
  unfold lookupId at h
  cases hf : st.entities.find? (fun e => decide (e.1 = id)) with
  | none => rw [hf] at h; exact absurd h (by simp)
  | some e =>
    rw [hf] at h
    have h2 : e.2 = r := by simpa using h
    have hmem := List.mem_of_find?_eq_some hf
    have hpred : e.1 = id := by simpa using List.find?_some hf
    have he : e = (id, r) := by cases e; simp_all
    rw [← he]
    exact hmem

theorem hasId_false_not_key {st : PoolState} {id : String}
    (h : st.hasId id = false) : ∀ e ∈ st.entities, e.1 ≠ id := by
  intro e he
  unfold PoolState.hasId lookupId at h
  cases hf : st.entities.find? (fun e => decide (e.1 = id)) with
  | none =>
    have := List.find?_eq_none.1 hf e he
    simpa using this
  | some x => rw [hf] at h; simp at h

theorem getD_set_ne_ref {α : Type} {l : List α} {i j : ℕ} (h : i ≠ j) (a d : α) :
    (l.set i a).getD j d = l.getD j d := by
  rw [List.getD_eq_getElem?_getD, List.getD_eq_getElem?_getD, List.getElem?_set_ne h]

theorem eraseP_key_ne {l : List (String × ℕ)} {id : String}
    (hn : (l.map (·.1)).Nodup) :
    ∀ e ∈ l.eraseP (fun e => decide (e.1 = id)), e.1 ≠ id := by
  induction l with
  | nil => simp [List.eraseP]
  | cons a t ih =>
    rw [List.map_cons, List.nodup_cons] at hn
    by_cases ha : a.1 = id
    · rw [List.eraseP_cons, show (decide (a.1 = id)) = true by simpa using ha]
      intro e he hei
      exact hn.1 (ha ▸ hei ▸ List.mem_map_of_mem (·.1) he)
    · rw [List.eraseP_cons, show (decide (a.1 = id)) = false by simpa using ha]
      intro e he
      rcases List.mem_cons.1 he with rfl | he2
      · exact ha
      · exact ih hn.2 e he2

theorem remove_eq (st : PoolState) (id : String) (r : ℕ) (h : lookupId st id = some r) :
    st.remove id =
      ({ st with entities := st.entities.eraseP (fun e => decide (e.1 = id)),
                 entityCache := st.entityCache.erase r },
       [HookEvent.remove r], true) := by
  unfold PoolState.remove
  rw [h]

theorem recycle_eq (st : PoolState) (id : String) (r : ℕ) (h : lookupId st id = some r) :
    st.recycle id =
      ({ st with entities := st.entities.eraseP (fun e => decide (e.1 = id)),
                 entityCache := st.entityCache.erase r,
                 freePool := st.freePool ++ [r] },
       [HookEvent.remove r, HookEvent.recycle r], true) := by
  unfold PoolState.recycle PoolState.remove
  rw [h]
  rfl

theorem poolInv_alloc (st : PoolState) (hinv : poolInv st) (p : Player) :
    poolInv (st.alloc p).1 := by
  obtain ⟨hkey, hnod, hbnd, hdisj⟩ := hinv
  refine ⟨?_, hnod, ⟨?_, ?_⟩, hdisj⟩
  · intro e he
    have hb := hbnd.1 e.2 (mem_activeRefs.2 ⟨e, he, rfl⟩)
    show ((st.store ++ [p]).getD e.2 {}).id = e.1
    rw [List.getD_append _ _ _ _ hb]
    exact hkey e he
  · intro r hr
    have := hbnd.1 r hr
    show r < (st.store ++ [p]).length
    simp only [List.length_append, List.length_cons, List.length_nil]
    omega
  · intro r hr
    have := hbnd.2 r hr
    show r < (st.store ++ [p]).length
    simp only [List.length_append, List.length_cons, List.length_nil]
    omega

theorem poolInv_add (st : PoolState) (hinv : poolInv st) (r : ℕ)
    (hfree : r ∉ st.freePool) : poolInv (st.add r).1 := by
  obtain ⟨hkey, hnod, hbnd, hdisj⟩ := hinv
  unfold PoolState.add
  cases hget : st.store.get? r with
  | none => exact ⟨hkey, hnod, hbnd, hdisj⟩
  | some p =>
    by_cases htrim : strTrim p.id = ""
    · simp only [htrim, if_true]
      exact ⟨hkey, hnod, hbnd, hdisj⟩
    · by_cases hdup : st.hasId p.id
      · simp only [htrim, if_false, hdup, if_true]
        exact ⟨hkey, hnod, hbnd, hdisj⟩
      · rw [Bool.not_eq_true] at hdup
        simp only [htrim, if_false, hdup, Bool.false_eq_true]
        have hrlen : r < st.store.length := by
          rcases List.get?_eq_some.1 hget with ⟨hl, _⟩
          exact hl
        have hpid : st.store.getD r {} = p := by
          rw [List.getD_eq_getElem?_getD, ← List.get?_eq_getElem?, hget]
          rfl
        refine ⟨?_, ?_, ⟨?_, ?_⟩, ?_⟩
        · intro e he
          rcases List.mem_append.1 he with he1 | he2
          · exact hkey e he1
          · rcases List.mem_singleton.1 he2 with rfl
            show (st.store.getD r {}).id = p.id
            rw [hpid]
        · show ((st.entities ++ [(p.id, r)]).map (·.1)).Nodup
          rw [List.map_append]
          rw [List.nodup_append]
          refine ⟨hnod, List.nodup_singleton _, ?_⟩
          intro x hx hx2
          simp only [List.map_cons, List.map_nil, List.mem_singleton] at hx2
          rcases List.mem_map.1 hx with ⟨e, he, rfl⟩
          exact hasId_false_not_key hdup e he hx2
        · intro r2 hr2
          rw [mem_activeRefs] at hr2
          rcases hr2 with ⟨e, he, rfl⟩
          rcases List.mem_append.1 he with he1 | he2
          · exact hbnd.1 e.2 (mem_activeRefs.2 ⟨e, he1, rfl⟩)
          · rcases List.mem_singleton.1 he2 with rfl
            exact hrlen
        · exact hbnd.2
        · intro r2 hr2
          rw [mem_activeRefs] at hr2
          rcases hr2 with ⟨e, he, rfl⟩
          rcases List.mem_append.1 he with he1 | he2
          · exact hdisj e.2 (mem_activeRefs.2 ⟨e, he1, rfl⟩)
          · rcases List.mem_singleton.1 he2 with rfl
            exact hfree

theorem poolInv_remove (st : PoolState) (hinv : poolInv st) (id : String) :
    poolInv (st.remove id).1 := by
  obtain ⟨hkey, hnod, hbnd, hdisj⟩ := hinv
  unfold PoolState.remove
  cases hl : lookupId st id with
  | none => exact ⟨hkey, hnod, hbnd, hdisj⟩
  | some r =>
    have hsub : (st.entities.eraseP (fun e => decide (e.1 = id))).Sublist st.entities :=
      List.eraseP_sublist st.entities
    refine ⟨?_, ?_, ⟨?_, hbnd.2⟩, ?_⟩
    · intro e he
      exact hkey e (hsub.subset he)
    · exact List.Nodup.sublist (hsub.map (·.1)) hnod
    · intro r2 hr2
      rw [mem_activeRefs] at hr2
      rcases hr2 with ⟨e, he, rfl⟩
      exact hbnd.1 e.2 (mem_activeRefs.2 ⟨e, hsub.subset he, rfl⟩)
    · intro r2 hr2
      rw [mem_activeRefs] at hr2
      rcases hr2 with ⟨e, he, rfl⟩
      exact hdisj e.2 (mem_activeRefs.2 ⟨e, hsub.subset he, rfl⟩)

theorem poolInv_recycle (st : PoolState) (hinv : poolInv st) (id : String) :
    poolInv (st.recycle id).1 := by
  cases hl : lookupId st id with
  | none =>
    unfold PoolState.recycle
    rw [hl]
    exact hinv
  | some r =>
    obtain ⟨hkey, hnod, hbnd, hdisj⟩ := hinv
    rw [recycle_eq st id r hl]
    have hsub : (st.entities.eraseP (fun e => decide (e.1 = id))).Sublist st.entities :=
      List.eraseP_sublist st.entities
    have hmem := lookupId_some_mem hl
    have hrb : r < st.store.length :=
      hbnd.1 r (mem_activeRefs.2 ⟨(id, r), hmem, rfl⟩)
    refine ⟨?_, ?_, ⟨?_, ?_⟩, ?_⟩
    · intro e he
      exact hkey e (hsub.subset he)
    · exact List.Nodup.sublist (hsub.map (·.1)) hnod
    · intro r2 hr2
      rw [mem_activeRefs] at hr2
      rcases hr2 with ⟨e, he, rfl⟩
      exact hbnd.1 e.2 (mem_activeRefs.2 ⟨e, hsub.subset he, rfl⟩)
    · intro r2 hr2
      rcases List.mem_append.1 hr2 with hr2a | hr2b
      · exact hbnd.2 r2 hr2a
      · rcases List.mem_singleton.1 hr2b with rfl
        exact hrb
    · intro r2 hr2 hr2f
      rw [mem_activeRefs] at hr2
      rcases hr2 with ⟨e, he, rfl⟩
      rcases List.mem_append.1 hr2f with hfa | hfb
      · exact hdisj e.2 (mem_activeRefs.2 ⟨e, hsub.subset he, rfl⟩) hfa
      · rcases List.mem_singleton.1 hfb with he2
        -- e references the recycled instance r, so by key consistency its key is id,
        -- contradicting that the entry with key id was just erased
        have hkeye := hkey e (hsub.subset he)
        have hkeyr := hkey (id, r) hmem
        rw [he2] at hkeye
        have : e.1 = id := by rw [← hkeye, hkeyr]
        exact eraseP_key_ne hnod e he this

theorem poolInv_getOrCreate (st : PoolState) (hinv : poolInv st)
    (create : Player) (reset : Player → Player) :
    poolInv (st.getOrCreate create reset).1 := by
  unfold PoolState.getOrCreate
  cases hlast : st.freePool.getLast? with
  | none => exact poolInv_alloc st hinv create
  | some r =>
    obtain ⟨hkey, hnod, hbnd, hdisj⟩ := hinv
    have hrfree : r ∈ st.freePool := List.mem_of_mem_getLast? hlast
    refine ⟨?_, hnod, ⟨?_, ?_⟩, ?_⟩
    · intro e he
      have hne : r ≠ e.2 := by
        intro hre
        exact hdisj e.2 (mem_activeRefs.2 ⟨e, he, rfl⟩) (hre ▸ hrfree)
      show ((st.store.set r (reset (st.store.getD r {}))).getD e.2 {}).id = e.1
      rw [getD_set_ne_ref hne]
      exact hkey e he
    · intro r2 hr2
      show r2 < (st.store.set r (reset (st.store.getD r {}))).length
      rw [List.length_set]
      exact hbnd.1 r2 hr2
    · intro r2 hr2
      show r2 < (st.store.set r (reset (st.store.getD r {}))).length
      rw [List.length_set]
      exact hbnd.2 r2 (List.mem_of_mem_dropLast hr2)
    · intro r2 hr2 hr2f
      exact hdisj r2 hr2 (List.mem_of_mem_dropLast hr2f)

theorem poolInv_clear (st : PoolState) (hinv : poolInv st) :
    poolInv st.clear.1 := by
  unfold PoolState.clear
  by_cases h : st.entityCache.length = 0
  · simp only [h, if_true]
    exact hinv
  · simp only [h, if_false]
    obtain ⟨_, _, hbnd, _⟩ := hinv
    exact ⟨by intro e he; simp at he, by simp [keysNodup],
      ⟨by intro r hr; simp [activeRefs] at hr, hbnd.2⟩,
      by intro r hr; simp [activeRefs] at hr⟩

theorem poolInv_clearFreePool (st : PoolState) (hinv : poolInv st) :
    poolInv st.clearFreePool := by
  obtain ⟨hkey, hnod, hbnd, _⟩ := hinv
  exact ⟨hkey, hnod, ⟨hbnd.1, by intro r hr; simp [PoolState.clearFreePool] at hr⟩,
    by intro r _ hr; simp [PoolState.clearFreePool] at hr⟩

theorem poolInv_destroy (st : PoolState) (hinv : poolInv st) :
    poolInv st.destroy.1 :=
  poolInv_clearFreePool _ (poolInv_clear st hinv)

/-! ### Claim theorems for the pool -/

theorem add_eq_success (st : PoolState) (r : ℕ) (p : Player)
    (hr : st.store.get? r = some p) (htrim : ¬ strTrim p.id = "")
    (hdup : st.hasId p.id = false) :
    st.add r = ({ st with entities := st.entities ++ [(p.id, r)],
                          entityCache := st.entityCache ++ [r] },
                [HookEvent.add r], none) := by
  unfold PoolState.add
  rw [hr]
  simp [htrim, hdup]

/-- C5: `add(entity)` fails with the invalid-entity error when the trimmed id
is empty (or the argument is not a `Player` instance), fails with the
duplicate-id error when the id is already present, and in both failure cases
the pool is returned unchanged (the throw precedes every mutation); otherwise
it stores the entity under its id, appends it to the cache, leaves the store
untouched, and fires the `onAdd` hook exactly once. -/
theorem pool_add_spec (st : PoolState) (r : ℕ) (p : Player)
    (hr : st.store.get? r = some p) :
    (strTrim p.id = "" → st.add r = (st, [], some PoolErr.invalidEntity)) ∧
    (strTrim p.id ≠ "" → st.hasId p.id = true →
       st.add r = (st, [], some (PoolErr.duplicateId p.id))) ∧
    (strTrim p.id ≠ "" → st.hasId p.id = false →
       (st.add r).1 = { st with entities := st.entities ++ [(p.id, r)],
                                entityCache := st.entityCache ++ [r] } ∧
       (st.add r).2.2 = none ∧
       (st.add r).2.1 = [HookEvent.add r] ∧
       (st.add r).2.1.count (HookEvent.add r) = 1 ∧
       lookupId (st.add r).1 p.id = some r ∧
       (st.add r).1.store = st.store) := by
  refine ⟨?_, ?_, ?_⟩
  · intro h
    unfold PoolState.add
    rw [hr]
    simp [h]
  · intro h hdup
    unfold PoolState.add
    rw [hr]
    simp [h, hdup]
  · intro h hdup
    have hadd := add_eq_success st r p hr h hdup
    have hfind : st.entities.find? (fun e => decide (e.1 = p.id)) = none := by
      rw [List.find?_eq_none]
      intro e he
      simpa using hasId_false_not_key hdup e he
    refine ⟨by rw [hadd], by rw [hadd], by rw [hadd], by rw [hadd]; simp, ?_, by rw [hadd]⟩
    rw [hadd]
    unfold lookupId
    show (((st.entities ++ [(p.id, r)]).find? (fun e => decide (e.1 = p.id))).map (·.2)) =
      some r
    rw [List.find?_append, hfind]
    simp

/-- Witness for C5: a successful add into an empty pool. -/
theorem pool_add_spec_witness :
    (PoolState.alloc {} aliasPlayer).1.store.get? 0 = some aliasPlayer ∧
    strTrim aliasPlayer.id ≠ "" ∧
    (PoolState.alloc {} aliasPlayer).1.hasId aliasPlayer.id = false ∧
    lookupId ((PoolState.alloc {} aliasPlayer).1.add 0).1 aliasPlayer.id = some 0 ∧
    ((PoolState.alloc {} aliasPlayer).1.add 0).2.1.count (HookEvent.add 0) = 1 :=
  ⟨rfl, by decide, rfl,
   ((pool_add_spec (PoolState.alloc {} aliasPlayer).1 0 aliasPlayer rfl).2.2
      (by decide) rfl).2.2.2.2.1,
   ((pool_add_spec (PoolState.alloc {} aliasPlayer).1 0 aliasPlayer rfl).2.2
      (by decide) rfl).2.2.2.1⟩

/-- C10: for an id present in the pool, `recycle(id)` goes through the pool's
`remove` operation, so the `onRemove` hook fires on the entity strictly before
the `onRecycle` hook — the emitted hook trace is exactly
`[onRemove, onRecycle]`, which is `remove`'s trace followed by the recycle
notification. -/
theorem pool_recycle_remove_first (st : PoolState) (id : String) (r : ℕ)
    (h : lookupId st id = some r) :
    (st.recycle id).2.1 = [HookEvent.remove r, HookEvent.recycle r] ∧
    (st.recycle id).2.1 = (st.remove id).2.1 ++ [HookEvent.recycle r] ∧
    (st.recycle id).2.2 = true := by
  rw [recycle_eq st id r h, remove_eq st id r h]
  exact ⟨rfl, rfl, rfl⟩

/-- Witness for C10 on a one-entity pool. -/
theorem pool_recycle_remove_first_witness :
    lookupId aliasSt1 "p1" = some 0 ∧
    (aliasSt1.recycle "p1").2.1 = [HookEvent.remove 0, HookEvent.recycle 0] :=
  ⟨by decide, (pool_recycle_remove_first aliasSt1 "p1" 0 (by decide)).1⟩

/-- C6 counterexample: from an empty pool, `add(e)`, `recycle("p1")`, then
re-`add(e)` of the caller-held reference succeeds and yields a state in which
reference 0 is simultaneously in the active map and in the free-list, refuting
the unconditional disjointness invariant. -/
theorem pool_active_free_overlap_cex :
    (aliasSt2.add 0).2.2 = none ∧
    lookupId aliasSt3 "p1" = some 0 ∧
    0 ∈ activeRefs aliasSt3 ∧
    0 ∈ aliasSt3.freePool ∧
    ¬ disjointFree aliasSt3 := by
  refine ⟨by decide, by decide, by decide, by decide, ?_⟩
  intro hdisj
  exact (hdisj 0 (by decide)) (by decide)

/-- C6 amended: `recycle(id)` removes the entity from the active map (so
`has(id)` is false afterwards, given unique map keys) and pushes the very same
instance onto the free-list, firing `onRecycle`; an immediately subsequent
`getOrCreate` pops exactly that instance, applies `resetFn` to it in place,
fires `onReuse`, and allocates nothing; and active-map/free-list disjointness
(with key consistency, key uniqueness and reference bounds) is preserved by
`alloc`, `remove`, `recycle`, `getOrCreate`, `clear`, `clearFreePool` and
`destroy` unconditionally, and by `add` whenever the added instance is not
currently in the free-list — re-adding a free-listed instance is the sole
violating operation. -/
theorem pool_recycle_reuse_invariant (st : PoolState) (id : String) (r : ℕ)
    (h : lookupId st id = some r) (hn : keysNodup st) :
    (st.recycle id).2.2 = true ∧
    (st.recycle id).1.hasId id = false ∧
    (st.recycle id).1.freePool = st.freePool ++ [r] ∧
    (st.recycle id).1.store = st.store ∧
    (∀ (create : Player) (reset : Player → Player),
       ((st.recycle id).1.getOrCreate create reset).2.2 = r ∧
       ((st.recycle id).1.getOrCreate create reset).2.1 = [HookEvent.reuse r] ∧
       ((st.recycle id).1.getOrCreate create reset).1.store =
         st.store.set r (reset (st.store.getD r {})) ∧
       ((st.recycle id).1.getOrCreate create reset).1.store.length =
         st.store.length) ∧
    (∀ st2 : PoolState, poolInv st2 →
       (∀ p, poolInv (st2.alloc p).1) ∧
       (∀ r2, r2 ∉ st2.freePool → poolInv (st2.add r2).1) ∧
       (∀ id2, poolInv (st2.remove id2).1) ∧
       (∀ id2, poolInv (st2.recycle id2).1) ∧
       (∀ create reset, poolInv (st2.getOrCreate create reset).1) ∧
       poolInv st2.clear.1 ∧ poolInv st2.clearFreePool ∧ poolInv st2.destroy.1) := by
  have hfp : (st.recycle id).1.freePool = st.freePool ++ [r] := by
    rw [recycle_eq st id r h]
  have hst : (st.recycle id).1.store = st.store := by
    rw [recycle_eq st id r h]
  have hfind : ((st.entities.eraseP (fun e => decide (e.1 = id))).find?
      (fun e => decide (e.1 = id))) = none := by
    rw [List.find?_eq_none]
    intro e he
    simpa using eraseP_key_ne hn e he
  refine ⟨by rw [recycle_eq st id r h], ?_, hfp, hst, ?_, ?_⟩
  · rw [recycle_eq st id r h]
    unfold PoolState.hasId lookupId
    show (((st.entities.eraseP (fun e => decide (e.1 = id))).find?
      (fun e => decide (e.1 = id))).map (·.2)).isSome = false
    rw [hfind]
    rfl
  · intro create reset
    have hlast : (st.recycle id).1.freePool.getLast? = some r := by
      rw [hfp]
      exact List.getLast?_concat _
    unfold PoolState.getOrCreate
    rw [hlast]
    refine ⟨rfl, rfl, ?_, ?_⟩
    · show (st.recycle id).1.store.set r (reset ((st.recycle id).1.store.getD r {})) =
        st.store.set r (reset (st.store.getD r {}))
      rw [hst]
    · show ((st.recycle id).1.store.set r
        (reset ((st.recycle id).1.store.getD r {}))).length = st.store.length
      rw [List.length_set, hst]
  · intro st2 hinv
    exact ⟨fun p => poolInv_alloc st2 hinv p,
      fun r2 hf => poolInv_add st2 hinv r2 hf,
      fun id2 => poolInv_remove st2 hinv id2,
      fun id2 => poolInv_recycle st2 hinv id2,
      fun create reset => poolInv_getOrCreate st2 hinv create reset,
      poolInv_clear st2 hinv, poolInv_clearFreePool st2 hinv, poolInv_destroy st2 hinv⟩

/-- Witness for C6 on a one-entity pool: recycle then reuse of reference 0. -/
theorem pool_recycle_reuse_invariant_witness :
    lookupId aliasSt1 "p1" = some 0 ∧ keysNodup aliasSt1 ∧
    (aliasSt1.recycle "p1").1.hasId "p1" = false ∧
    ((aliasSt1.recycle "p1").1.getOrCreate {} (fun p => p)).2.2 = 0 := by
  have h := pool_recycle_reuse_invariant aliasSt1 "p1" 0 (by decide)
    (by unfold keysNodup; decide)
  exact ⟨by decide, by unfold keysNodup; decide, h.2.1, (h.2.2.2.2.1 {} (fun p => p)).1⟩

/-! ### Claim theorems for Player validation -/

theorem option_any_false {α : Type} (o : Option α) : o.any (fun _ => false) = false := by
  cases o <;> rfl

theorem mkPlayer_eq_opacity_guard (ps : PlayerParams) :
    mkPlayer ps =
      (if ps.opacity.any (fun v => !(validOpacity v)) then
        Except.error (validationErrorMsg "opacity")
      else Except.ok (applyParams ps)) := by
  unfold mkPlayer
  simp only [validId, validName, validLocation, validSize, validBackground, validRotation,
    validBorder, validShape, validImageSrc, Bool.not_true, option_any_false,
    Bool.false_eq_true, if_false]

/-- C1 counterexample: a `Player` with size `[0, 0]` is constructed without any
validation error, is accepted into a pool (where `get`/`entityAt` then exposes
a non-positive size component), and `setW(-5)` succeeds — refuting the claim
that non-positive sizes fail with a validation error. -/
theorem player_size_validation_cex :
    mkPlayer { id := some "p1", size := some (0, 0) } = Except.ok zeroSizePlayer ∧
    ¬ 0 < zeroSizePlayer.size.1 ∧
    ((PoolState.alloc {} zeroSizePlayer).1.add 0).2.2 = none ∧
    zeroSizePool.hasId "p1" = true ∧
    zeroSizePool.entityAt 0 = zeroSizePlayer ∧
    ¬ 0 < (zeroSizePool.entityAt 0).size.1 ∧
    (zeroSizePlayer.setW (-5)).size.1 = -5 := by
  refine ⟨by rfl, by decide, by decide, by decide, by decide, by decide, by decide⟩

/-- C1 amended: the constructor and `setOpacity` do validate opacity — every
constructed `Player` has (when set) opacity in `[0, 1]`, out-of-range opacity
makes the constructor and `setOpacity` fail with the respective validation
error (leaving the entity unchanged, as the throw precedes the assignment) —
while `setW`/`setH`/`setSize` accept any numeric value (no positivity check)
and leave opacity untouched, and `add` stores entities in the pool without
modifying them. -/
theorem player_opacity_validation (ps : PlayerParams) (p q : Player) (v w h : ℚ) :
    (mkPlayer ps = Except.ok p → opacityOkB p = true) ∧
    (ps.opacity = some v → ¬(0 ≤ v ∧ v ≤ 1) →
       mkPlayer ps = Except.error (validationErrorMsg "opacity")) ∧
    (¬(0 ≤ v ∧ v ≤ 1) →
       q.setOpacity v = Except.error "opacity must be a number between 0 and 1") ∧
    ((0 ≤ v ∧ v ≤ 1) →
       q.setOpacity v = Except.ok { q with opacity := some v } ∧
       opacityOkB { q with opacity := some v } = true) ∧
    ((q.setW w).size.1 = w ∧ (q.setH h).size.2 = h ∧ (q.setSize w h).size = (w, h)) ∧
    (opacityOkB (q.setW w) = opacityOkB q ∧ opacityOkB (q.setH h) = opacityOkB q ∧
       opacityOkB (q.setSize w h) = opacityOkB q) ∧
    (∀ (st : PoolState) (r : ℕ), (st.add r).1.store = st.store) := by
  refine ⟨?_, ?_, ?_, ?_, ⟨rfl, rfl, rfl⟩, ⟨rfl, rfl, rfl⟩, ?_⟩
  · intro hok
    rw [mkPlayer_eq_opacity_guard] at hok
    cases hop : ps.opacity with
    | none =>
      rw [hop] at hok
      simp only [Option.any_none, Bool.false_eq_true, if_false, Except.ok.injEq] at hok
      rw [← hok]
      simp [opacityOkB, applyParams, hop]
    | some o =>
      rw [hop] at hok
      by_cases hv : validOpacity o
      · simp only [Option.any_some, hv, Bool.not_true, Bool.false_eq_true, if_false,
          Except.ok.injEq] at hok
        rw [← hok]
        simp only [opacityOkB, applyParams, hop, Option.getD_some]
        exact hv
      · rw [Bool.not_eq_true] at hv
        simp only [Option.any_some, hv, Bool.not_false, if_true] at hok
        exact absurd hok (by simp)
  · intro hop hnv
    rw [mkPlayer_eq_opacity_guard, hop]
    have hv : validOpacity v = false := by
      simp only [validOpacity, Bool.and_eq_false_iff, decide_eq_false_iff_not]
      tauto
    simp [hv]
  · intro hnv
    unfold Player.setOpacity
    have : (decide (0 ≤ v) && decide (v ≤ 1)) = false := by
      simp only [Bool.and_eq_false_iff, decide_eq_false_iff_not]
      tauto
    simp [this]
  · intro hv
    have : (decide (0 ≤ v) && decide (v ≤ 1)) = true := by
      simp only [Bool.and_eq_true, decide_eq_true_eq]
      exact hv
    constructor
    · unfold Player.setOpacity
      simp [this]
    · simp only [opacityOkB]
      exact this
  · intro st r
    unfold PoolState.add
    cases st.store.get? r with
    | none => rfl
    | some p2 =>
      by_cases h1 : strTrim p2.id = ""
      · simp [h1]
      · by_cases h2 : st.hasId p2.id <;> simp [h1, h2]

/-- Witness for C1 (amended): an out-of-range opacity of 2 is rejected by the
constructor, and `setW` with a negative width leaves opacity validity alone. -/
theorem player_opacity_validation_witness :
    ¬((0 : ℚ) ≤ 2 ∧ (2 : ℚ) ≤ 1) ∧
    mkPlayer { opacity := some 2 } = Except.error (validationErrorMsg "opacity") ∧
    opacityOkB (({} : Player).setW (-5)) = opacityOkB ({} : Player) := by
  refine ⟨by norm_num, ?_, ?_⟩
  · exact (player_opacity_validation { opacity := some 2 } {} {} 2 0 0).2.1 rfl
      (by norm_num)
  · exact (player_opacity_validation { opacity := some 2 } {} {} 2 (-5) 0).2.2.2.2.2.1.1

/-! ### Claim theorem for the getAll snapshot -/

theorem getAllSnapshot_read (cacheRef : ℕ) (h : ArrayHeap) :
    readArr (getAllSnapshot cacheRef h).2 (getAllSnapshot cacheRef h).1 =
      readArr h cacheRef := by
  show (h.cells ++ [readArr h cacheRef]).getD h.cells.length [] = readArr h cacheRef
  rw [List.getD_append_right _ _ _ _ le_rfl]
  simp

/-- C7: `getAll()` allocates a fresh array (its identity differs from the live
cache array) holding a copy of the cache contents; arbitrarily mutating the
returned array changes neither the live cache nor the result of any subsequent
`getAll()`, which still returns the original contents. -/
theorem pool_getAll_snapshot (cacheRef : ℕ) (h : ArrayHeap)
    (hc : cacheRef < h.cells.length) :
    (getAllSnapshot cacheRef h).1 ≠ cacheRef ∧
    readArr (getAllSnapshot cacheRef h).2 (getAllSnapshot cacheRef h).1 =
      readArr h cacheRef ∧
    ∀ l : List ℕ,
      readArr (writeArr (getAllSnapshot cacheRef h).2 (getAllSnapshot cacheRef h).1 l)
          cacheRef = readArr h cacheRef ∧
      readArr
          (getAllSnapshot cacheRef
            (writeArr (getAllSnapshot cacheRef h).2 (getAllSnapshot cacheRef h).1 l)).2
          (getAllSnapshot cacheRef
            (writeArr (getAllSnapshot cacheRef h).2 (getAllSnapshot cacheRef h).1 l)).1 =
        readArr h cacheRef := by
  have hne : h.cells.length ≠ cacheRef := by
    intro he
    rw [← he] at hc
    exact lt_irrefl _ hc
  have hwrite : ∀ l : List ℕ,
      readArr (writeArr (getAllSnapshot cacheRef h).2 (getAllSnapshot cacheRef h).1 l)
        cacheRef = readArr h cacheRef := by
    intro l
    show ((h.cells ++ [readArr h cacheRef]).set h.cells.length l).getD cacheRef [] =
      h.cells.getD cacheRef []
    rw [getD_set_ne_ref hne, List.getD_append _ _ _ _ hc]
  refine ⟨hne, getAllSnapshot_read cacheRef h, fun l => ⟨hwrite l, ?_⟩⟩
  rw [getAllSnapshot_read]
  exact hwrite l

/-- Witness for C7 on a concrete one-array heap: overwrite the snapshot with
`[9]`, the cache still reads `[1, 2]` and a second `getAll` still returns
`[1, 2]`. -/
theorem pool_getAll_snapshot_witness :
    (0 : ℕ) < (⟨[[1, 2]]⟩ : ArrayHeap).cells.length ∧
    readArr (writeArr (getAllSnapshot 0 ⟨[[1, 2]]⟩).2 (getAllSnapshot 0 ⟨[[1, 2]]⟩).1 [9])
      0 = readArr (⟨[[1, 2]]⟩ : ArrayHeap) 0 ∧
    readArr
      (getAllSnapshot 0
        (writeArr (getAllSnapshot 0 ⟨[[1, 2]]⟩).2 (getAllSnapshot 0 ⟨[[1, 2]]⟩).1 [9])).2
      (getAllSnapshot 0
        (writeArr (getAllSnapshot 0 ⟨[[1, 2]]⟩).2 (getAllSnapshot 0 ⟨[[1, 2]]⟩).1 [9])).1 =
      readArr (⟨[[1, 2]]⟩ : ArrayHeap) 0 :=
  ⟨by decide, ((pool_getAll_snapshot 0 ⟨[[1, 2]]⟩ (by decide)).2.2 [9]).1,
   ((pool_getAll_snapshot 0 ⟨[[1, 2]]⟩ (by decide)).2.2 [9]).2⟩

/-! ### Claim theorem for the sync-server updateState handlers -/

theorem lookupConn_none_of_any_false {m : List (String × Player)} {cid : String}
    (h : m.any (fun e => decide (e.1 = cid)) = false) : lookupConn m cid = none := by
  unfold lookupConn
  rw [List.any_eq_false] at h
  have : m.find? (fun e => decide (e.1 = cid)) = none := List.find?_eq_none.2 h
  rw [this]
  rfl

theorem any_true_of_lookupConn_some {m : List (String × Player)} {cid : String}
    {old : Player} (h : lookupConn m cid = some old) :
    m.any (fun e => decide (e.1 = cid)) = true := by
  unfold lookupConn at h
  cases hf : m.find? (fun e => decide (e.1 = cid)) with
  | none => rw [hf] at h; exact absurd h (by simp)
  | some e =>
    rw [List.any_eq_true]
    refine ⟨e, List.mem_of_find?_eq_some hf, ?_⟩
    have hp := List.find?_some hf
    exact hp

theorem lookupConn_map_replace (m : List (String × Player)) (cid : String) (v : Player)
    (h : m.any (fun e => decide (e.1 = cid)) = true) :
    lookupConn (m.map (fun e => if e.1 = cid then (cid, v) else e)) cid = some v := by
  induction m with
  | nil => simp at h
  | cons a t ih =>
    by_cases ha : a.1 = cid
    · simp only [List.map_cons, if_pos ha]
      unfold lookupConn
      rw [List.find?_cons_of_pos _ (by simp)]
      rfl
    · simp only [List.map_cons, if_neg ha]
      unfold lookupConn
      rw [List.find?_cons_of_neg _ (by simpa using ha)]
      have ht : t.any (fun e => decide (e.1 = cid)) = true := by
        rw [List.any_cons] at h
        simpa [ha] using h
      exact ih ht

theorem lookupConn_map_other (m : List (String × Player)) (cid c : String) (v : Player)
    (hne : c ≠ cid) :
    lookupConn (m.map (fun e => if e.1 = cid then (cid, v) else e)) c =
      lookupConn m c := by
  induction m with
  | nil => rfl
  | cons a t ih =>
    by_cases ha : a.1 = cid
    · simp only [List.map_cons, if_pos ha]
      unfold lookupConn
      rw [List.find?_cons_of_neg _ (by simpa using fun hc => hne hc.symm),
        List.find?_cons_of_neg _ (by simpa [ha] using fun hc => hne hc.symm)]
      exact ih
    · simp only [List.map_cons, if_neg ha]
      unfold lookupConn
      by_cases hac : a.1 = c
      · rw [List.find?_cons_of_pos _ (by simpa using hac),
          List.find?_cons_of_pos _ (by simpa using hac)]
      · rw [List.find?_cons_of_neg _ (by simpa using hac),
          List.find?_cons_of_neg _ (by simpa using hac)]
        exact ih

/-- C8: an update-state message from a connection id not present in the player
map is silently ignored by both server variants — the map is unchanged and the
handler broadcasts nothing (it is total, so the server keeps running).  For a
known connection id, the replace variant stores exactly the received payload
and the merge variant stores the spread-merge (which keeps the stored id), in
both cases broadcasting nothing and leaving every other connection's stored
entity unchanged. -/
theorem server_update_state (m : List (String × Player)) (cid : String)
    (state : Player) (s : PartialState) :
    (lookupConn m cid = none →
       handleUpdateState m cid state = (m, []) ∧
       handleUpdateStateMerge m cid s = (m, [])) ∧
    (∀ old, lookupConn m cid = some old →
       (handleUpdateState m cid state).2 = [] ∧
       lookupConn (handleUpdateState m cid state).1 cid = some state ∧
       (∀ c, c ≠ cid →
          lookupConn (handleUpdateState m cid state).1 c = lookupConn m c) ∧
       (handleUpdateStateMerge m cid s).2 = [] ∧
       lookupConn (handleUpdateStateMerge m cid s).1 cid = some (mergeState old s) ∧
       (mergeState old s).id = old.id ∧
       (∀ c, c ≠ cid →
          lookupConn (handleUpdateStateMerge m cid s).1 c = lookupConn m c)) := by
  constructor
  · intro hnone
    have hany : m.any (fun e => decide (e.1 = cid)) = false := by
      cases hA : m.any (fun e => decide (e.1 = cid)) with
      | false => rfl
      | true =>
        rcases List.any_eq_true.1 hA with ⟨e, he, hp⟩
        have : m.find? (fun e => decide (e.1 = cid)) ≠ none := by
          intro hf
          exact absurd hp (by simpa using List.find?_eq_none.1 hf e he)
        unfold lookupConn at hnone
        cases hf : m.find? (fun e => decide (e.1 = cid)) with
        | none => exact absurd hf this
        | some x => rw [hf] at hnone; exact absurd hnone (by simp)
    constructor
    · unfold handleUpdateState
      rw [hany]
      rfl
    · unfold handleUpdateStateMerge
      rw [hany]
      rfl
  · intro old hold
    have hany := any_true_of_lookupConn_some hold
    have hstate : handleUpdateState m cid state =
        (m.map (fun e => if e.1 = cid then (cid, state) else e), []) := by
      unfold handleUpdateState mapSet
      rw [hany]
      rfl
    have hmerge : handleUpdateStateMerge m cid s =
        (m.map (fun e => if e.1 = cid then (cid, mergeState old s) else e), []) := by
      unfold handleUpdateStateMerge mapSet
      rw [hany, hold]
      rfl
    refine ⟨by rw [hstate], ?_, ?_, by rw [hmerge], ?_, rfl, ?_⟩
    · rw [hstate]
      exact lookupConn_map_replace m cid state hany
    · intro c hc
      rw [hstate]
      exact lookupConn_map_other m cid c state hc
    · rw [hmerge]
      exact lookupConn_map_replace m cid (mergeState old s) hany
    · intro c hc
      rw [hmerge]
      exact lookupConn_map_other m cid c (mergeState old s) hc

/-- Witness for C8: a two-connection map; updating `"a"` replaces only `"a"`,
and an unknown id `"z"` is ignored. -/
theorem server_update_state_witness :
    lookupConn [("a", aliasPlayer), ("b", zeroSizePlayer)] "a" = some aliasPlayer ∧
    lookupConn
      (handleUpdateState [("a", aliasPlayer), ("b", zeroSizePlayer)] "a"
        zeroSizePlayer).1 "a" = some zeroSizePlayer ∧
    lookupConn
      (handleUpdateState [("a", aliasPlayer), ("b", zeroSizePlayer)] "a"
        zeroSizePlayer).1 "b" = lookupConn [("a", aliasPlayer), ("b", zeroSizePlayer)] "b" ∧
    lookupConn [("a", aliasPlayer), ("b", zeroSizePlayer)] "z" = none ∧
    handleUpdateState [("a", aliasPlayer), ("b", zeroSizePlayer)] "z" zeroSizePlayer =
      ([("a", aliasPlayer), ("b", zeroSizePlayer)], []) := by
  have hsome := (server_update_state [("a", aliasPlayer), ("b", zeroSizePlayer)] "a"
    zeroSizePlayer {}).2 aliasPlayer (by decide)
  have hnone := (server_update_state [("a", aliasPlayer), ("b", zeroSizePlayer)] "z"
    zeroSizePlayer {}).1 (by decide)
  exact ⟨by decide, hsome.2.1, hsome.2.2.1 "b" (by decide), by decide, hnone.1⟩

/-! ### Claim theorem for scene destruction -/

/-- C9: destroying an active scene deregisters both of its closures from the
scheduler (the step trace shows both deregistrations strictly before the pool
teardown), flips `isActive`, and afterwards the scene's update and render
closures are absent from the callback lists, so they never fire again on any
later sequence of scheduler ticks, whatever the other callbacks do. -/
theorem scene_destroy_no_refire (sc : SceneState) (loop : LoopState)
    (hact : sc.isActive = true) :
    (sceneDestroy sc loop).1.isActive = false ∧
    (sceneDestroy sc loop).2.1.updateCallbacks =
      (loop.updateCallbacks.filter (fun x => decide (x ≠ sc.cbU))) ∧
    sc.cbU ∉ (sceneDestroy sc loop).2.1.updateCallbacks ∧
    sc.cbR ∉ (sceneDestroy sc loop).2.1.renderCallbacks ∧
    (sceneDestroy sc loop).1.pool = sc.pool.destroy.1 ∧
    (sceneDestroy sc loop).2.2 =
      [DestroyStep.deregisterUpdate sc.cbU, DestroyStep.deregisterRender sc.cbR,
       DestroyStep.poolDestroy, DestroyStep.setInactive] ∧
    (∀ (W : Type) (env : CbEnv W) (tss : List ℚ) (w : W) (d : ℚ),
       (sc.cbU, d) ∉ updInvocations (runTicks env tss (sceneDestroy sc loop).2.1 w).2.2) ∧
    ∀ (W : Type) (env : CbEnv W) (tss : List ℚ) (w : W),
       sc.cbR ∉ renInvocations (runTicks env tss (sceneDestroy sc loop).2.1 w).2.2 := by
  have hdest : sceneDestroy sc loop =
      ({ sc with isActive := false, pool := sc.pool.destroy.1 },
       removeRenderCallback (removeUpdateCallback loop sc.cbU) sc.cbR,
       [DestroyStep.deregisterUpdate sc.cbU, DestroyStep.deregisterRender sc.cbR,
        DestroyStep.poolDestroy, DestroyStep.setInactive]) := by
    unfold sceneDestroy
    rw [hact]
    rfl
  have hupd : (sceneDestroy sc loop).2.1.updateCallbacks =
      loop.updateCallbacks.filter (fun x => decide (x ≠ sc.cbU)) := by
    rw [hdest]
    rfl
  have hrend : (sceneDestroy sc loop).2.1.renderCallbacks =
      (removeUpdateCallback loop sc.cbU).renderCallbacks.filter
        (fun x => decide (x ≠ sc.cbR)) := by
    rw [hdest]
    rfl
  have hcbU : sc.cbU ∉ (sceneDestroy sc loop).2.1.updateCallbacks := by
    rw [hupd]
    intro hmem
    have := (List.mem_filter.1 hmem).2
    simp at this
  have hcbR : sc.cbR ∉ (sceneDestroy sc loop).2.1.renderCallbacks := by
    rw [hrend]
    intro hmem
    have := (List.mem_filter.1 hmem).2
    simp at this
  refine ⟨by rw [hdest], hupd, hcbU, hcbR, by rw [hdest], by rw [hdest], ?_, ?_⟩
  · intro W env tss w d
    exact runTicks_upd_not_fired env tss (sceneDestroy sc loop).2.1 w hcbU d
  · intro W env tss w
    exact runTicks_ren_not_fired env tss (sceneDestroy sc loop).2.1 w hcbR

/-- Witness for C9: destroying the concrete active scene `sceneC9` removes its
closures `5` and `7` from `loopC9`, and they never fire across the later frame
timestamps `[16, 32]`. -/
theorem scene_destroy_no_refire_witness :
    sceneC9.isActive = true ∧
    (sceneDestroy sceneC9 loopC9).1.isActive = false ∧
    (sceneC9.cbU, (16 : ℚ) / 1000) ∉
      updInvocations (runTicks unitEnv [16, 32] (sceneDestroy sceneC9 loopC9).2.1 ()).2.2 ∧
    sceneC9.cbR ∉
      renInvocations (runTicks unitEnv [16, 32] (sceneDestroy sceneC9 loopC9).2.1 ()).2.2 :=
  ⟨rfl, (scene_destroy_no_refire sceneC9 loopC9 rfl).1,
   (scene_destroy_no_refire sceneC9 loopC9 rfl).2.2.2.2.2.2.1 Unit unitEnv [16, 32] ()
     ((16 : ℚ) / 1000),
   (scene_destroy_no_refire sceneC9 loopC9 rfl).2.2.2.2.2.2.2 Unit unitEnv [16, 32] ()⟩

end NoteElec
